import Mathlib

/-!
Verification development for the DS-GSMRS relay core.

Shallow embedding of the core components, translated from the TypeScript
source:
  * `MessageSanitizer` (stripHtml / hideSensitive / sanitizeMessage /
    normalize) from `src/services/sanitizer.ts`;
  * `GitHubService.isEventProcessed` / `markEventProcessed` (the
    deduplicator) from `src/services/github.service.ts`;
  * `MemoryQueue` (enqueue / process / retry / dead-letter) from
    `src/queue/memoryQueue.ts`.

The five fixed JavaScript regular expressions used by the sanitizer are
hand-compiled into executable matchers over `List Char`, reproducing the
JS engine behaviour (leftmost match, greedy quantifiers with
backtracking, sequential global replacement that resumes after the end
of each match).  JS whitespace (`\s`) is modelled by the ASCII
whitespace characters, and JS strings by Lean `String`.
-/

namespace GSMRS

/-! ## JS values (for `normalize`, whose `rawData` parameter has type `any`) -/

/-- A JavaScript runtime value.  `nullish` stands for both `null` and
`undefined` (the two nullish values: both are falsy, both abort `?.`
chains, and property access on either throws a `TypeError`). -/
inductive JsVal where
  | nullish : JsVal
  | bool (b : Bool) : JsVal
  | num (n : Int) : JsVal
  | str (s : String) : JsVal
  | obj (fields : List (String × JsVal)) : JsVal

/-- JS truthiness. -/
def truthy : JsVal → Bool
  | .nullish => false
  | .bool b => b
  | .num n => n != 0
  | .str s => s != ""
  | .obj _ => true

/-- Look a key up in an object field list (first binding wins, like a JS
object literal read). -/
def jsLookup (fields : List (String × JsVal)) (k : String) : JsVal :=
  match fields.find? (fun p => p.1 == k) with
  | some p => p.2
  | none => .nullish

/-- Plain property access `v.k`: throws a `TypeError` on nullish `v`,
yields `undefined` on primitives, and looks the key up on objects. -/
def getField : JsVal → String → Except String JsVal
  | .nullish, _ => .error "TypeError"
  | .obj fields, k => .ok (jsLookup fields k)
  | _, _ => .ok .nullish

/-- Optional-chained access `v?.k`: never throws. -/
def optField (v : JsVal) (k : String) : JsVal :=
  match v with
  | .nullish => .nullish
  | .obj fields => jsLookup fields k
  | _ => .nullish

/-- JS `a || b`: `b` if `a` is falsy, else `a`. -/
def jsOr (a b : JsVal) : JsVal := if truthy a then a else b

/-- Rendering of a JS value stored into a string-typed field
(`String(v)` semantics). -/
def jsAsString : JsVal → String
  | .nullish => "undefined"
  | .bool b => if b then "true" else "false"
  | .num n => toString n
  | .str s => s
  | .obj _ => "[object Object]"

/-- A `string | undefined` field: `undefined` becomes `none`. -/
def jsOptStr : JsVal → Option String
  | .nullish => none
  | v => some (jsAsString v)

/-- Object spread `{...v}` as used for `metadata`: copies an object's
fields, turns a string into indexed character fields, and yields an
empty object for the other primitives. -/
def spreadObj : JsVal → List (String × JsVal)
  | .obj fields => fields
  | .str s => (s.data.enum).map (fun p => (toString p.1, .str (String.mk [p.2])))
  | _ => []

/-! ## Canonical message -/

/-- The closed set of message sources. -/
inductive Source where
  | telegram | github | api | internal
deriving DecidableEq, Repr

def Source.tag : Source → String
  | .telegram => "telegram"
  | .github => "github"
  | .api => "api"
  | .internal => "internal"

/-- The `NormalizedMessage` record of `src/types`. -/
structure NormalizedMessage where
  id : String
  source : Source
  timestamp : Nat
  title : Option String
  content : String
  author : Option String
  metadata : List (String × JsVal)
  sanitized : Bool

/-! ## Sanitizer: character classes and generic scan/replace -/

/-- JS `\s`, restricted to the ASCII whitespace characters. -/
def isWs (c : Char) : Bool := c == ' ' || c == '\t' || c == '\n' || c == '\r'

/-- The credential value class `[a-zA-Z0-9_\-]`. -/
def isValCh (c : Char) : Bool := c.isAlpha || c.isDigit || c == '_' || c == '-'

/-- The email user class `[a-zA-Z0-9._%+-]`. -/
def isUserCh (c : Char) : Bool :=
  c.isAlpha || c.isDigit || c == '.' || c == '_' || c == '%' || c == '+' || c == '-'

/-- The email domain class `[a-zA-Z0-9.-]`. -/
def isDomCh (c : Char) : Bool := c.isAlpha || c.isDigit || c == '.' || c == '-'

/-- The phone separator class `[-.\s]`. -/
def isSepCh (c : Char) : Bool := c == '-' || c == '.' || isWs c

/-- Number of leading digits of a character list. -/
def leadDigits (s : List Char) : Nat := (s.takeWhile Char.isDigit).length

/-- `[n, n-1, ..., 1]`: the order in which a greedy bounded quantifier
tries repetition counts. -/
def descList (n : Nat) : List Nat := (List.range n).reverse.map (· + 1)

/-- Consume one separator character if present (`[-.\s]?`; consuming is
the only branch that can succeed, since the following regex element
always requires a digit or a parenthesis). -/
def consumeSep : List Char → (Nat × List Char)
  | c :: rest => if isSepCh c then (1, rest) else (0, c :: rest)
  | [] => (0, [])

/-- `hasPrefix pre s`: `pre` is a prefix of `s`. -/
def hasPrefix : List Char → List Char → Bool
  | [], _ => true
  | _ :: _, [] => false
  | p :: ps, c :: cs => p == c && hasPrefix ps cs

/-- `hasInfix n h`: `n` occurs as a contiguous substring of `h`. -/
def hasInfix (n : List Char) : List Char → Bool
  | [] => hasPrefix n []
  | c :: rest => hasPrefix n (c :: rest) || hasInfix n rest

/-- JS `String.prototype.replace` with a plain-string pattern: replace
the first occurrence of `needle` by `repl`. -/
def replaceFirst (needle repl : List Char) : List Char → List Char
  | [] => []
  | c :: rest =>
    if hasPrefix needle (c :: rest) then repl ++ (c :: rest).drop needle.length
    else c :: replaceFirst needle repl rest

/-- One global-replace pass: `m suffix` decides whether the pattern
matches at the head of `suffix` and, if so, returns the match length
(always ≥ 1 for the patterns below) and the replacement text; scanning
resumes immediately after each match, exactly like a JS `g`-flagged
`replace`. -/
def scanReplF (m : List Char → Option (Nat × List Char)) : Nat → List Char → List Char
  | _, [] => []
  | 0, s => s
  | fuel + 1, c :: rest =>
    match m (c :: rest) with
    | none => c :: scanReplF m fuel rest
    | some (len, repl) => repl ++ scanReplF m fuel (rest.drop (len - 1))

/-- The scan started with enough fuel to visit every position (each
step consumes at least one character, so the `0` fallback of
`scanReplF` is never reached). -/
def scanRepl (m : List Char → Option (Nat × List Char)) (s : List Char) : List Char :=
  scanReplF m s.length s

/-! ## Sanitizer: the five matchers -/

/-- `<[^>]*>`: at `<`, the greedy `[^>]*` runs to the first `>`. -/
def tagMatch : List Char → Option (Nat × List Char)
  | '<' :: rest =>
    match rest.findIdx? (fun c => c == '>') with
    | some k => some (k + 2, [])
    | none => none
  | _ => none

/-- `&[^;]+;`: at `&`, at least one non-`;` character, then the first `;`. -/
def entityMatch : List Char → Option (Nat × List Char)
  | '&' :: rest =>
    match rest.findIdx? (fun c => c == ';') with
    | some k => if k == 0 then none else some (k + 2, [])
    | none => none
  | _ => none

/-- Case-insensitive literal keyword match; returns the rest of the
input on success (the pattern is given in lower case). -/
def matchKw : List Char → List Char → Option (List Char)
  | [], s => some s
  | _ :: _, [] => none
  | k :: ks, c :: s => if c.toLower == k then matchKw ks s else none

/-- `api[_-]?key` (the inner `[_-]?` is deterministic: if a separator is
present, the no-separator branch would need `k` at the separator). -/
def kwApi (s : List Char) : Option (Nat × List Char) :=
  match matchKw ['a', 'p', 'i'] s with
  | none => none
  | some r1 =>
    match r1 with
    | [] => none
    | c :: r2 =>
      if c == '_' || c == '-' then
        match matchKw ['k', 'e', 'y'] r2 with
        | some r3 => some (7, r3)
        | none => none
      else
        match matchKw ['k', 'e', 'y'] r1 with
        | some r3 => some (6, r3)
        | none => none

/-- The keyword alternation `token|api[_-]?key|secret|password|passwd|pwd`
(case-insensitive).  No alternative is a literal prefix of another at
the same position, so at most one can match. -/
def kwMatch (s : List Char) : Option (Nat × List Char) :=
  match matchKw ['t', 'o', 'k', 'e', 'n'] s with
  | some r => some (5, r)
  | none =>
  match kwApi s with
  | some x => some x
  | none =>
  match matchKw ['s', 'e', 'c', 'r', 'e', 't'] s with
  | some r => some (6, r)
  | none =>
  match matchKw ['p', 'a', 's', 's', 'w', 'o', 'r', 'd'] s with
  | some r => some (8, r)
  | none =>
  match matchKw ['p', 'a', 's', 's', 'w', 'd'] s with
  | some r => some (6, r)
  | none =>
  match matchKw ['p', 'w', 'd'] s with
  | some r => some (3, r)
  | none => none

/-- The four-character mask. -/
def mask4 : List Char := ['*', '*', '*', '*']

/-- `(?:token|api[_-]?key|secret|password|passwd|pwd)\s*[:=]\s*([a-zA-Z0-9_\-]{20,})`
with the replacement callback of `hideSensitive`: the captured value is
masked to its first two and last two characters inside the match
(`match.replace(token, ...)` replaces the first occurrence). -/
def tokenMatch (s : List Char) : Option (Nat × List Char) :=
  match kwMatch s with
  | none => none
  | some (klen, r1) =>
    let w1 := (r1.takeWhile isWs).length
    let r2 := r1.drop w1
    match r2 with
    | [] => none
    | c :: r3 =>
      if c == ':' || c == '=' then
        let w2 := (r3.takeWhile isWs).length
        let r4 := r3.drop w2
        let v := r4.takeWhile isValCh
        if v.length ≥ 20 then
          let mlen := klen + w1 + 1 + w2 + v.length
          let masked :=
            if v.length > 8 then v.take 2 ++ mask4 ++ v.drop (v.length - 2)
            else mask4
          some (mlen, replaceFirst v masked (s.take mlen))
        else none
      else none

/-- Largest split point of the greedy domain run admitting
`\.[a-zA-Z]{2,}`: the last `.` in the run followed by at least two
letters. -/
def bestDot (dom : List Char) : Option Nat :=
  ((List.range dom.length).reverse).find? (fun p =>
    !(p == 0) && ((dom.drop p).head? == some '.')
      && decide (2 ≤ ((dom.drop (p + 1)).takeWhile Char.isAlpha).length))

/-- `([a-zA-Z0-9._%+-]+)@([a-zA-Z0-9.-]+\.[a-zA-Z]{2,})` with the
replacement of `hideSensitive`: the user part keeps its first two
characters when longer than two, the matched domain is kept verbatim. -/
def emailMatch (s : List Char) : Option (Nat × List Char) :=
  let user := s.takeWhile isUserCh
  if user.length == 0 then none
  else
    match s.drop user.length with
    | '@' :: rest =>
      let dom := rest.takeWhile isDomCh
      match bestDot dom with
      | none => none
      | some p =>
        let letters := (dom.drop (p + 1)).takeWhile Char.isAlpha
        let dlen := p + 1 + letters.length
        let hidden := if user.length > 2 then user.take 2 ++ mask4 else mask4
        some (user.length + 1 + dlen, hidden ++ '@' :: dom.take dlen)
    | _ => none

/-- `\+?\d{1,3}[-.\s]?\(?\d{1,4}\)?[-.\s]?\d{1,4}[-.\s]?\d{1,9}` with
the replacement of `hideSensitive`: the digits of the match are masked
to their first two and last two when more than four, else to `****`.
Optional one-character elements are deterministic (skipping a present
separator or parenthesis immediately fails on the following digit
requirement), so only the three bounded digit groups backtrack. -/
def phoneMatch (s : List Char) : Option (Nat × List Char) :=
  let (p, s0) :=
    match s with
    | '+' :: rest => (1, rest)
    | _ => (0, s)
  let ra := min (leadDigits s0) 3
  let found := (descList ra).findSome? (fun a =>
    let s1 := s0.drop a
    let (b1, s2) := consumeSep s1
    let (b2, s3) :=
      match s2 with
      | '(' :: rest => (1, rest)
      | _ => (0, s2)
    let rb := min (leadDigits s3) 4
    (descList rb).findSome? (fun d =>
      let s4 := s3.drop d
      let (b3, s5) :=
        match s4 with
        | ')' :: rest => (1, rest)
        | _ => (0, s4)
      let (b4, s6) := consumeSep s5
      let rc := min (leadDigits s6) 4
      (descList rc).findSome? (fun e =>
        let s7 := s6.drop e
        let (b5, s8) := consumeSep s7
        let f := min (leadDigits s8) 9
        if f == 0 then none
        else some (p + a + b1 + b2 + d + b3 + b4 + e + b5 + f))))
  match found with
  | none => none
  | some len =>
    let matched := s.take len
    let digits := matched.filter Char.isDigit
    let repl :=
      if digits.length > 4 then
        digits.take 2 ++ mask4 ++ digits.drop (digits.length - 2)
      else mask4
    some (len, repl)

/-! ## Sanitizer: the exported functions -/

/-- `MessageSanitizer.stripHtml`: remove HTML tags, then entity
references. -/
def stripHtml (html : String) : String :=
  String.mk (scanRepl entityMatch (scanRepl tagMatch html.data))

/-- `MessageSanitizer.hideSensitive`: mask credentials, then email
addresses, then phone-shaped digit runs. -/
def hideSensitive (text : String) : String :=
  String.mk (scanRepl phoneMatch (scanRepl emailMatch (scanRepl tokenMatch text.data)))

/-- Truthiness of a `string | undefined` field (the empty string is
falsy). -/
def strTruthy : Option String → Bool
  | none => false
  | some t => t != ""

/-- `MessageSanitizer.sanitizeMessage`: strip markup from content and
(truthy) title, then, when `hide` is set, mask sensitive substrings; the
second title guard re-tests the stripped title, as in the source. -/
def sanitizeMessage (message : NormalizedMessage) (hide : Bool) : NormalizedMessage :=
  let content0 := stripHtml message.content
  let title0 :=
    if strTruthy message.title then some (stripHtml (message.title.getD ""))
    else message.title
  let content1 := if hide then hideSensitive content0 else content0
  let title1 :=
    if hide && strTruthy title0 then some (hideSensitive (title0.getD ""))
    else title0
  { message with content := content1, title := title1, sanitized := true }

/-- `MessageSanitizer.normalize`: map an origin payload to the canonical
shape.  `now` and `rand` stand for `Date.now()` and the random id
suffix.  Property accesses on the untyped payload are modelled in the
`Except` monad, since JS property access on a nullish value throws. -/
def normalize (source : Source) (rawData : JsVal) (now : Nat) (rand : String) :
    Except String NormalizedMessage :=
  let id := source.tag ++ "_" ++ toString now ++ "_" ++ rand
  let timestamp := now
  let base : Option String → String → Option String → List (String × JsVal) →
      NormalizedMessage := fun title content author metadata =>
    { id := id, source := source, timestamp := timestamp, title := title,
      content := content, author := author, metadata := metadata,
      sanitized := false }
  match source with
  | .telegram =>
    (getField rawData "message").bind fun msg =>
      if truthy msg then
        (getField msg "text").bind fun text =>
        (getField msg "from").bind fun fromV =>
        (getField msg "chat").bind fun chat =>
        (getField msg "message_id").bind fun msgId =>
          .ok (base none (jsAsString (jsOr text (.str "")))
            (jsOptStr (jsOr (optField fromV "username") (optField fromV "first_name")))
            [("chatId", optField chat "id"), ("messageId", msgId)])
      else .ok (base none "" none [])
  | .github =>
    (getField rawData "issue").bind fun issue =>
      if truthy issue then
        (getField issue "title").bind fun t =>
        (getField issue "body").bind fun body =>
        (getField issue "user").bind fun user =>
        (getField issue "number").bind fun num =>
        (getField rawData "repository").bind fun repo =>
        (getField rawData "action").bind fun action =>
          .ok (base (jsOptStr t) (jsAsString (jsOr body (.str "")))
            (jsOptStr (optField user "login"))
            [("issueNumber", num), ("repository", optField repo "full_name"),
             ("action", action)])
      else .ok (base none "" none [])
  | .api =>
    (getField rawData "title").bind fun t =>
    (getField rawData "content").bind fun c =>
    (getField rawData "message").bind fun m =>
    (getField rawData "author").bind fun a =>
    (getField rawData "metadata").bind fun md =>
      .ok (base (jsOptStr t) (jsAsString (jsOr (jsOr c m) (.str "")))
        (jsOptStr a) (if truthy md then spreadObj md else []))
  | .internal =>
    (getField rawData "title").bind fun t =>
    (getField rawData "content").bind fun c =>
    (getField rawData "message").bind fun m =>
    (getField rawData "author").bind fun a =>
    (getField rawData "metadata").bind fun md =>
      .ok (base (jsOptStr t) (jsAsString (jsOr (jsOr c m) (.str "")))
        (jsOptStr (jsOr a (.str "system")))
        (if truthy md then spreadObj md else []))

/-! ## Deduplicator (`GitHubService.processedEvents`)

A JS `Set<string>` iterates in insertion order and `add` of an existing
element keeps its position, so the set is modelled as a duplicate-free
list in insertion order. -/

/-- `GitHubService.isEventProcessed`: `processedEvents.has(eventId)`. -/
def isEventProcessed (events : List String) (eventId : String) : Bool :=
  decide (eventId ∈ events)

/-- `GitHubService.markEventProcessed`: add, then, if the size exceeds
1000, delete the first (oldest) element — but only when that element is
truthy (`if (first)`), i.e. a nonempty string. -/
def markEventProcessed (events : List String) (eventId : String) : List String :=
  let events1 := if eventId ∈ events then events else events ++ [eventId]
  if events1.length > 1000 then
    match events1 with
    | [] => events1
    | first :: rest => if first ≠ "" then rest else first :: rest
  else events1

/-! ## Delivery queue (`MemoryQueue`) -/

/-- The `QueueJob` record of `src/types`. -/
structure QueueJob where
  id : Nat
  message : NormalizedMessage
  target : String
  retries : Nat
  maxRetries : Nat
  createdAt : Nat

/-- The job constructed by `MemoryQueue.enqueue` (`retries` starts at 0). -/
def mkJob (idn : Nat) (message : NormalizedMessage) (target : String)
    (maxRetries : Nat) (now : Nat) : QueueJob :=
  { id := idn, message := message, target := target, retries := 0,
    maxRetries := maxRetries, createdAt := now }

/-- `this.queue.push(job)`: append at the FIFO tail. -/
def enqueue (queue : List QueueJob) (job : QueueJob) : List QueueJob :=
  queue ++ [job]

/-- The result of one handler invocation: `true`, `false`, or a thrown
error. -/
inductive HandlerOutcome where
  | success | failure | thrown

/-- The initial retry delay (`retryDelay = 1000` ms). -/
def retryDelay : Nat := 1000

/-- The failure branch of `process` (`if (!success)`): below the limit,
increment `retries` and schedule a delayed tail re-insertion after
`retryDelay * 2^(retries - 1)` ms; at the limit, dead-letter. -/
def onFailure (job : QueueJob) : Sum (Nat × QueueJob) QueueJob :=
  if job.retries < job.maxRetries then
    let j := { job with retries := job.retries + 1 }
    Sum.inl (retryDelay * 2 ^ (j.retries - 1), j)
  else
    Sum.inr job

/-- The `catch` branch of `process` (thrown handler error), transcribed
separately from its own block of the source. -/
def onError (job : QueueJob) : Sum (Nat × QueueJob) QueueJob :=
  if job.retries < job.maxRetries then
    let j := { job with retries := job.retries + 1 }
    Sum.inl (retryDelay * 2 ^ (j.retries - 1), j)
  else
    Sum.inr job

/-- The handler registry (`handlers: Map<string, JobHandler>`); a
handler is modelled by the outcome it produces on a given job. -/
def Handlers : Type := String → Option (QueueJob → HandlerOutcome)

/-- The body of one iteration of the `process` loop, applied to a job
already popped from the queue: it only appends to the dead-letter list
or schedules a delayed re-insertion timer. -/
def stepJob (handlers : Handlers) (job : QueueJob)
    (dlq : List QueueJob) (timers : List (Nat × QueueJob)) :
    List QueueJob × List (Nat × QueueJob) :=
  match handlers job.target with
  | none => (dlq ++ [job], timers)
  | some h =>
    match h job with
    | .success => (dlq, timers)
    | .failure =>
      match onFailure job with
      | .inl t => (dlq, timers ++ [t])
      | .inr j => (dlq ++ [j], timers)
    | .thrown =>
      match onError job with
      | .inl t => (dlq, timers ++ [t])
      | .inr j => (dlq ++ [j], timers)

/-- One drain of the `process` loop: pop the FIFO head repeatedly until
the queue is empty.  Returns the trace of popped jobs (in attempt
order) together with the final dead-letter list and pending timers. -/
def drainAux (handlers : Handlers) :
    List QueueJob → List QueueJob → List (Nat × QueueJob) →
    List QueueJob × List QueueJob × List (Nat × QueueJob)
  | [], dlq, timers => ([], dlq, timers)
  | job :: rest, dlq, timers =>
    let (dlq1, timers1) := stepJob handlers job dlq timers
    let (trace, dlq2, timers2) := drainAux handlers rest dlq1 timers1
    (job :: trace, dlq2, timers2)

/-- A fired `setTimeout` callback pushes its job at the queue tail. -/
def fireTimer (queue : List QueueJob) (job : QueueJob) : List QueueJob :=
  queue ++ [job]

/-- Whole-system run: drain the queue to empty, then let the earliest
pending timer fire (its callback re-inserts the job and restarts the
drain), until no work is left.  Returns the attempt trace, the observed
re-insertion delays in order, and the final dead-letter list.  Timer
delays (≥ 1000 ms) dominate drain time, so drains are modelled as
completing before the next timer fires. -/
def runSys (handlers : Handlers) :
    Nat → List QueueJob → List QueueJob → List (Nat × QueueJob) →
    List QueueJob × List Nat × List QueueJob
  | 0, _, dlq, _ => ([], [], dlq)
  | fuel + 1, queue, dlq, timers =>
    let (trace, dlq1, timers1) := drainAux handlers queue dlq timers
    match timers1 with
    | [] => (trace, [], dlq1)
    | (d, job) :: timersRest =>
      let (trace2, delays, dlqF) := runSys handlers fuel (fireTimer [] job) dlq1 timersRest
      (trace ++ trace2, d :: delays, dlqF)

/-! ## Single-drain discipline (`processing` flag)

JS runs `process()` cooperatively: the guard `if (this.processing ||
this.queue.length === 0) return; this.processing = true;` executes with
no intervening suspension point, so it is one atomic transition.  The
state records how many `process()` invocations are currently inside the
drain loop. -/

/-- Observable scheduling state of a `MemoryQueue`. -/
structure SysState where
  processing : Bool
  activeDrains : Nat
  queue : List QueueJob

/-- The synchronous prefix of `process()`: return if already processing
or the queue is empty, else set the flag and enter the loop. -/
def startProcess (s : SysState) : SysState :=
  if s.processing || s.queue.isEmpty then s
  else { s with processing := true, activeDrains := s.activeDrains + 1 }

/-- `enqueue`: push at the tail, then `if (!this.processing) this.process()`. -/
def enqueueEv (s : SysState) (job : QueueJob) : SysState :=
  let s1 := { s with queue := s.queue ++ [job] }
  if s1.processing then s1 else startProcess s1

/-- A retry timer callback: push at the tail, then
`if (!this.processing) this.process()` (transcribed separately from the
`setTimeout` callback of the source). -/
def timerFireEv (s : SysState) (job : QueueJob) : SysState :=
  let s1 := { s with queue := s.queue ++ [job] }
  if s1.processing then s1 else startProcess s1

/-- Transitions of the queue's scheduling state: an external `enqueue`,
a retry timer firing, the drain loop popping the head, and the drain
loop terminating on an empty queue (`this.processing = false`). -/
inductive SysStep : SysState → SysState → Prop where
  | enq (s : SysState) (job : QueueJob) : SysStep s (enqueueEv s job)
  | timer (s : SysState) (job : QueueJob) : SysStep s (timerFireEv s job)
  | pop (s : SysState) (job : QueueJob) (rest : List QueueJob) :
      s.processing = true → s.queue = job :: rest → SysStep s { s with queue := rest }
  | finish (s : SysState) :
      s.processing = true → s.queue = [] →
      SysStep s { s with processing := false, activeDrains := s.activeDrains - 1 }

/-- The scheduling invariant: the `processing` flag counts the active
drain loops exactly. -/
def SysInv (s : SysState) : Prop :=
  s.activeDrains = if s.processing then 1 else 0

/-! ## Auxiliary predicates and fixtures used by the statements -/

/-- `m` fails to match at every position of `s` (every suffix). -/
def noHit (m : List Char → Option (Nat × List Char)) : List Char → Bool
  | [] => true
  | c :: rest => (m (c :: rest)).isNone && noHit m rest

/-- No pattern of `sanitizeMessage` (tag, entity, credential, email,
phone) matches anywhere in `s`. -/
def cleanStr (s : String) : Bool :=
  noHit tagMatch s.data && noHit entityMatch s.data && noHit tokenMatch s.data &&
    noHit emailMatch s.data && noHit phoneMatch s.data

/-- Whether a `normalize` call returned without throwing. -/
def isOk {ε α : Type} : Except ε α → Bool
  | .ok _ => true
  | .error _ => false

/-- The `content` of a successful `normalize` result. -/
def contentOf : Except String NormalizedMessage → Option String
  | .ok m => some m.content
  | .error _ => none

/-- A concrete canonical message used by witnesses. -/
def msg0 : NormalizedMessage :=
  { id := "msg0", source := .internal, timestamp := 0, title := none,
    content := "hello", author := none, metadata := [], sanitized := false }

/-- A concrete handler registry: an always-failing handler for the
`mail` target and nothing else. -/
def handlersW : Handlers :=
  fun t => if t == "mail" then some (fun _ => HandlerOutcome.failure) else none

/-- A concrete handler registry whose `mail` handler always succeeds. -/
def handlersOkW : Handlers :=
  fun t => if t == "mail" then some (fun _ => HandlerOutcome.success) else none

/-- A concrete handler registry whose `mail` handler always throws. -/
def handlersThrowW : Handlers :=
  fun t => if t == "mail" then some (fun _ => HandlerOutcome.thrown) else none

/-- 1000 pairwise-distinct nonempty event identities:
`"a"`, `"aa"`, `"aaa"`, …. -/
def restW : List String :=
  (List.range 1000).map (fun n => String.mk (List.replicate (n + 1) 'a'))

/-- 1001 pairwise-distinct event identities whose first element is the
empty string. -/
def exList : List String := "" :: restW

/-- A message whose content is a run of 25 digits. -/
def msgC3 : NormalizedMessage :=
  { id := "m", source := .internal, timestamp := 0, title := none,
    content := "1234567890123456789012345", author := none, metadata := [],
    sanitized := false }

/-- A message on which none of the sanitizer patterns fires. -/
def msgW : NormalizedMessage :=
  { id := "w", source := .api, timestamp := 0, title := some "Report",
    content := "hello world", author := none, metadata := [],
    sanitized := false }

/-! # Theorems -/

/-- C2: a job enqueued for a target with no registered handler is moved
directly to the dead-letter list by the drain, with `retries = 0`
(exactly as `enqueue` created it), and no delayed re-insertion timer is
scheduled for it — the timer list is untouched and the drain trace shows
the single pop. -/
theorem missing_handler_dead_letter (handlers : Handlers)
    (idn : Nat) (msg : NormalizedMessage) (tgt : String) (mr now : Nat)
    (hnone : handlers tgt = none)
    (dlq : List QueueJob) (timers : List (Nat × QueueJob)) :
    drainAux handlers (enqueue [] (mkJob idn msg tgt mr now)) dlq timers =
      ([mkJob idn msg tgt mr now], dlq ++ [mkJob idn msg tgt mr now], timers) ∧
    (mkJob idn msg tgt mr now).retries = 0 := by
  refine ⟨?_, rfl⟩
  simp [drainAux, stepJob, enqueue, mkJob, hnone]

/-- C2 witness. -/
theorem missing_handler_dead_letter_witness :
    drainAux handlersW (enqueue [] (mkJob 7 msg0 "github" 3 5)) [] [] =
      ([mkJob 7 msg0 "github" 3 5], [] ++ [mkJob 7 msg0 "github" 3 5], []) ∧
    (mkJob 7 msg0 "github" 3 5).retries = 0 :=
  missing_handler_dead_letter handlersW 7 msg0 "github" 3 5 rfl [] []

/-- C6: with handlers that succeed on every job, a drain of jobs
enqueued in the order A, B, C attempts them exactly in that order
(enqueue appends at the tail, the drain pops the head), and nothing is
dead-lettered or re-inserted. -/
theorem fifo_preserved_no_failures (handlers : Handlers) (A B C : QueueJob)
    (hA : QueueJob → HandlerOutcome) (hB : QueueJob → HandlerOutcome)
    (hC : QueueJob → HandlerOutcome)
    (hrA : handlers A.target = some hA) (hoA : hA A = .success)
    (hrB : handlers B.target = some hB) (hoB : hB B = .success)
    (hrC : handlers C.target = some hC) (hoC : hC C = .success)
    (dlq : List QueueJob) (timers : List (Nat × QueueJob)) :
    drainAux handlers (enqueue (enqueue (enqueue [] A) B) C) dlq timers =
      ([A, B, C], dlq, timers) := by
  simp [drainAux, stepJob, enqueue, hrA, hrB, hrC, hoA, hoB, hoC]

/-- C6 witness. -/
theorem fifo_preserved_no_failures_witness :
    drainAux handlersOkW
      (enqueue (enqueue (enqueue [] (mkJob 1 msg0 "mail" 3 0))
        (mkJob 2 msg0 "mail" 3 0)) (mkJob 3 msg0 "mail" 3 0)) [] [] =
      ([mkJob 1 msg0 "mail" 3 0, mkJob 2 msg0 "mail" 3 0, mkJob 3 msg0 "mail" 3 0],
       [], []) :=
  fifo_preserved_no_failures handlersOkW (mkJob 1 msg0 "mail" 3 0)
    (mkJob 2 msg0 "mail" 3 0) (mkJob 3 msg0 "mail" 3 0)
    (fun _ => HandlerOutcome.success) (fun _ => HandlerOutcome.success)
    (fun _ => HandlerOutcome.success) rfl rfl rfl rfl rfl rfl [] []

/-- C8: a thrown handler error is treated identically to a `false`
return: the `catch` branch (`onError`) computes the same retry/dead-
letter decision as the failure branch (`onFailure`) on every job, and
one drain step with a throwing handler produces exactly the state of a
drain step with a false-returning handler. -/
theorem thrown_equals_false_return :
    (∀ job : QueueJob, onError job = onFailure job) ∧
    (∀ (handlers1 handlers2 : Handlers) (job : QueueJob)
       (h1 h2 : QueueJob → HandlerOutcome)
       (dlq : List QueueJob) (timers : List (Nat × QueueJob)),
       handlers1 job.target = some h1 → handlers2 job.target = some h2 →
       h1 job = .failure → h2 job = .thrown →
       stepJob handlers1 job dlq timers = stepJob handlers2 job dlq timers) := by
  refine ⟨fun _ => rfl, ?_⟩
  intro handlers1 handlers2 job h1 h2 dlq timers hr1 hr2 ho1 ho2
  simp [stepJob, hr1, hr2, ho1, ho2, onError, onFailure]

/-- C8 witness. -/
theorem thrown_equals_false_return_witness :
    onError (mkJob 1 msg0 "mail" 3 0) = onFailure (mkJob 1 msg0 "mail" 3 0) ∧
    stepJob handlersW (mkJob 1 msg0 "mail" 3 0) [] [] =
      stepJob handlersThrowW (mkJob 1 msg0 "mail" 3 0) [] [] :=
  ⟨thrown_equals_false_return.1 (mkJob 1 msg0 "mail" 3 0),
   thrown_equals_false_return.2 handlersW handlersThrowW
     (mkJob 1 msg0 "mail" 3 0) _ _ [] [] rfl rfl rfl rfl⟩

/-- Pushing a job and conditionally starting the drain preserves the
scheduling invariant. -/
theorem enqueueEv_inv (s : SysState) (job : QueueJob) (hinv : SysInv s) :
    SysInv (enqueueEv s job) := by
  unfold SysInv at *
  by_cases hp : s.processing
  · simpa [enqueueEv, hp] using hinv
  · simp only [Bool.not_eq_true] at hp
    simp only [hp, if_neg Bool.false_ne_true] at hinv
    simp [enqueueEv, startProcess, hp, hinv]

/-- The timer callback preserves the scheduling invariant. -/
theorem timerFireEv_inv (s : SysState) (job : QueueJob) (hinv : SysInv s) :
    SysInv (timerFireEv s job) := by
  unfold SysInv at *
  by_cases hp : s.processing
  · simpa [timerFireEv, hp] using hinv
  · simp only [Bool.not_eq_true] at hp
    simp only [hp, if_neg Bool.false_ne_true] at hinv
    simp [timerFireEv, startProcess, hp, hinv]

/-- A state satisfying the scheduling invariant has at most one active
drain. -/
theorem SysInv.le_one {s : SysState} (hinv : SysInv s) : s.activeDrains ≤ 1 := by
  unfold SysInv at hinv
  by_cases hp : s.processing <;> simp [hp] at hinv <;> omega

/-- C9: the `processing` flag admits at most one active drain loop —
every transition preserves the invariant that the number of active
drains is 1 when the flag is set and 0 otherwise (so an `enqueue` while
a drain is running never starts a second one), and a retry timer firing
on an idle queue itself restarts the drain with the re-inserted job at
the tail. -/
theorem single_active_drain :
    (∀ s s' : SysState, SysInv s → SysStep s s' → SysInv s' ∧ s'.activeDrains ≤ 1) ∧
    (∀ (s : SysState) (job : QueueJob), s.processing = true →
       (enqueueEv s job).activeDrains = s.activeDrains ∧
       (enqueueEv s job).processing = true) ∧
    (∀ (s : SysState) (job : QueueJob), s.processing = false → s.queue = [] →
       (timerFireEv s job).processing = true ∧
       (timerFireEv s job).queue = [job] ∧
       (timerFireEv s job).activeDrains = s.activeDrains + 1) := by
  refine ⟨?_, ?_, ?_⟩
  · intro s s' hinv hstep
    suffices h : SysInv s' from ⟨h, h.le_one⟩
    cases hstep with
    | enq job => exact enqueueEv_inv s job hinv
    | timer job => exact timerFireEv_inv s job hinv
    | pop job rest hp hq => simpa [SysInv] using hinv
    | finish hp hq =>
      have h1 : s.activeDrains = 1 := by simpa [SysInv, hp] using hinv
      simp [SysInv, h1]
  · intro s job hp
    simp [enqueueEv, hp]
  · intro s job hp hq
    simp [timerFireEv, startProcess, hp, hq]

/-- C9 witness. -/
theorem single_active_drain_witness :
    SysInv { processing := true, activeDrains := 1,
             queue := [mkJob 1 msg0 "mail" 3 0] } ∧
    (SysInv (enqueueEv { processing := true, activeDrains := 1,
                         queue := [mkJob 1 msg0 "mail" 3 0] } (mkJob 2 msg0 "mail" 3 0)) ∧
      (enqueueEv { processing := true, activeDrains := 1,
                   queue := [mkJob 1 msg0 "mail" 3 0] }
          (mkJob 2 msg0 "mail" 3 0)).activeDrains ≤ 1) ∧
    ((timerFireEv { processing := false, activeDrains := 0, queue := [] }
        (mkJob 3 msg0 "mail" 3 0)).processing = true ∧
      (timerFireEv { processing := false, activeDrains := 0, queue := [] }
        (mkJob 3 msg0 "mail" 3 0)).queue = [mkJob 3 msg0 "mail" 3 0] ∧
      (timerFireEv { processing := false, activeDrains := 0, queue := [] }
        (mkJob 3 msg0 "mail" 3 0)).activeDrains = 0 + 1) :=
  ⟨by unfold SysInv; simp,
   single_active_drain.1 _ _ (by unfold SysInv; simp)
     (SysStep.enq { processing := true, activeDrains := 1,
                    queue := [mkJob 1 msg0 "mail" 3 0] } (mkJob 2 msg0 "mail" 3 0)),
   single_active_drain.2.2 { processing := false, activeDrains := 0, queue := [] }
     (mkJob 3 msg0 "mail" 3 0) rfl rfl⟩

/-- C1: a job enqueued with `maxRetries = 3` whose handler fails on
every attempt is popped four times; each failure below the limit
re-schedules it at the queue tail after `retryDelay * 2^(retries-1)` ms
— the observed delays are exactly 1000, 2000, 4000 — and on the fourth
attempt it is moved to the dead-letter list with `retries = 3`; the run
ends with an empty queue and no pending timer, and a further drain pops
nothing (the dead-lettered job is never popped again). -/
theorem retry_backoff_schedule (handlers : Handlers) (tgt : String)
    (h : QueueJob → HandlerOutcome) (hreg : handlers tgt = some h)
    (hfail : ∀ jb, h jb = .failure)
    (idn : Nat) (msg : NormalizedMessage) (now : Nat) :
    runSys handlers 5 (enqueue [] (mkJob idn msg tgt 3 now)) [] [] =
      ([mkJob idn msg tgt 3 now,
        { mkJob idn msg tgt 3 now with retries := 1 },
        { mkJob idn msg tgt 3 now with retries := 2 },
        { mkJob idn msg tgt 3 now with retries := 3 }],
       [1000, 2000, 4000],
       [{ mkJob idn msg tgt 3 now with retries := 3 }]) ∧
    drainAux handlers [] [{ mkJob idn msg tgt 3 now with retries := 3 }] [] =
      ([], [{ mkJob idn msg tgt 3 now with retries := 3 }], []) := by
  have hfail3 : (mkJob idn msg tgt 3 now).retries < (mkJob idn msg tgt 3 now).maxRetries := by
    simp [mkJob]
  have e0 : drainAux handlers (enqueue [] (mkJob idn msg tgt 3 now)) [] [] =
      ([mkJob idn msg tgt 3 now], [],
       [(1000, { mkJob idn msg tgt 3 now with retries := 1 })]) := by
    simp [drainAux, stepJob, enqueue, mkJob, hreg, hfail, onFailure, retryDelay]
  have e1 : drainAux handlers [{ mkJob idn msg tgt 3 now with retries := 1 }] [] [] =
      ([{ mkJob idn msg tgt 3 now with retries := 1 }], [],
       [(2000, { mkJob idn msg tgt 3 now with retries := 2 })]) := by
    simp [drainAux, stepJob, mkJob, hreg, hfail, onFailure, retryDelay]
  have e2 : drainAux handlers [{ mkJob idn msg tgt 3 now with retries := 2 }] [] [] =
      ([{ mkJob idn msg tgt 3 now with retries := 2 }], [],
       [(4000, { mkJob idn msg tgt 3 now with retries := 3 })]) := by
    simp [drainAux, stepJob, mkJob, hreg, hfail, onFailure, retryDelay]
  have e3 : drainAux handlers [{ mkJob idn msg tgt 3 now with retries := 3 }] [] [] =
      ([{ mkJob idn msg tgt 3 now with retries := 3 }],
       [{ mkJob idn msg tgt 3 now with retries := 3 }], []) := by
    simp [drainAux, stepJob, mkJob, hreg, hfail, onFailure, retryDelay]
  refine ⟨?_, by simp [drainAux]⟩
  rw [show (5 : Nat) = 4 + 1 from rfl, runSys, e0]
  simp only [fireTimer, List.nil_append]
  rw [show (4 : Nat) = 3 + 1 from rfl, runSys, e1]
  simp only [fireTimer, List.nil_append]
  rw [show (3 : Nat) = 2 + 1 from rfl, runSys, e2]
  simp only [fireTimer, List.nil_append]
  rw [show (2 : Nat) = 1 + 1 from rfl, runSys, e3]
  simp

/-- C1 witness. -/
theorem retry_backoff_schedule_witness :
    runSys handlersW 5 (enqueue [] (mkJob 1 msg0 "mail" 3 0)) [] [] =
      ([mkJob 1 msg0 "mail" 3 0,
        { mkJob 1 msg0 "mail" 3 0 with retries := 1 },
        { mkJob 1 msg0 "mail" 3 0 with retries := 2 },
        { mkJob 1 msg0 "mail" 3 0 with retries := 3 }],
       [1000, 2000, 4000],
       [{ mkJob 1 msg0 "mail" 3 0 with retries := 3 }]) ∧
    drainAux handlersW [] [{ mkJob 1 msg0 "mail" 3 0 with retries := 3 }] [] =
      ([], [{ mkJob 1 msg0 "mail" 3 0 with retries := 3 }], []) :=
  retry_backoff_schedule handlersW "mail" (fun _ => HandlerOutcome.failure)
    rfl (fun _ => rfl) 1 msg0 0

/-! ## Deduplicator lemmas -/

/-- Marking a fresh identity while at most 999 identities are stored
just appends it (no eviction). -/
theorem markEventProcessed_fresh (s : List String) (x : String)
    (hx : x ∉ s) (hlen : s.length + 1 ≤ 1000) :
    markEventProcessed s x = s ++ [x] := by
  unfold markEventProcessed
  simp only [hx, if_false, if_neg]
  have h1000 : ¬ (s ++ [x]).length > 1000 := by simp; omega
  simp [h1000]
  intro hcontra
  exact absurd hcontra (by omega)

/-- When the oldest stored identity is the empty string, the eviction
guard `if (first)` is falsy and marking never evicts, whatever the
size. -/
theorem markEventProcessed_skip (s : List String) (x : String)
    (hx : x ∉ s) (hhead : s.head? = some "") :
    markEventProcessed s x = s ++ [x] := by
  cases s with
  | nil => simp at hhead
  | cons a s' =>
    have ha : a = "" := by simpa using hhead
    subst ha
    unfold markEventProcessed
    simp only [hx, if_neg]
    by_cases hl : ("" :: s' ++ [x]).length > 1000 <;> simp [hx, hl]

/-- Folding fresh identities keeps appending while the store stays at
or below the 1000 cap. -/
theorem foldMark_no_evict (l : List String) : ∀ s : List String,
    (s ++ l).Nodup → (s ++ l).length ≤ 1000 →
    List.foldl markEventProcessed s l = s ++ l := by
  induction l with
  | nil => intro s _ _; simp
  | cons x xs ih =>
    intro s hnd hlen
    have hx : x ∉ s := by
      have hd := (List.nodup_append.mp hnd).2.2
      intro hmem
      exact hd hmem (List.mem_cons_self x xs)
    have hstep : markEventProcessed s x = s ++ [x] :=
      markEventProcessed_fresh s x hx (by simp at hlen ⊢; omega)
    rw [List.foldl_cons, hstep]
    have := ih (s ++ [x]) (by simpa [List.append_assoc] using hnd)
      (by simp at hlen ⊢; omega)
    simpa [List.append_assoc] using this

/-- Folding fresh identities onto a store whose oldest element is the
empty string appends without ever evicting. -/
theorem foldMark_skip_head (l : List String) : ∀ s : List String,
    (s ++ l).Nodup → s.head? = some "" →
    List.foldl markEventProcessed s l = s ++ l := by
  induction l with
  | nil => intro s _ _; simp
  | cons x xs ih =>
    intro s hnd hhead
    have hx : x ∉ s := by
      have hd := (List.nodup_append.mp hnd).2.2
      intro hmem
      exact hd hmem (List.mem_cons_self x xs)
    rw [List.foldl_cons, markEventProcessed_skip s x hx hhead]
    have hhead' : (s ++ [x]).head? = some "" := by
      cases s with
      | nil => simp at hhead
      | cons a s' => simpa using hhead
    have := ih (s ++ [x]) (by simpa [List.append_assoc] using hnd) hhead'
    simpa [List.append_assoc] using this

/-- `restW` has 1000 entries. -/
theorem restW_length : restW.length = 1000 := by simp [restW]

/-- The fixture identities are pairwise distinct. -/
theorem restW_nodup : restW.Nodup := by
  unfold restW
  refine List.Nodup.map ?_ (List.nodup_range 1000)
  intro m n hmn
  have hdata : List.replicate (m + 1) 'a' = List.replicate (n + 1) 'a' :=
    congrArg String.data hmn
  have := congrArg List.length hdata
  simpa using this

/-- No fixture identity is the empty string. -/
theorem empty_not_mem_restW : "" ∉ restW := by
  unfold restW
  simp only [List.mem_map, List.mem_range]
  rintro ⟨n, -, hn⟩
  have hdata : List.replicate (n + 1) 'a' = ([] : List Char) :=
    congrArg String.data hn
  have := congrArg List.length hdata
  simp at this

/-- `"z"` is not a fixture identity. -/
theorem z_not_mem_restW : "z" ∉ restW := by
  unfold restW
  simp only [List.mem_map, List.mem_range]
  rintro ⟨n, -, hn⟩
  have hdata : List.replicate (n + 1) 'a' = ['z'] := congrArg String.data hn
  have hlen := congrArg List.length hdata
  simp at hlen
  subst hlen
  simp at hdata

/-- C4 (amended): marking 1001 distinct identities, the first of them
nonempty, leaves exactly the 1000 most recent in insertion order: the
single oldest identity is evicted (`isEventProcessed` is then false for
it and true for each of the others), and lookups, being pure reads of
the set, cannot extend a lifetime. -/
theorem dedup_fifo_eviction (e : String) (rest : List String)
    (hnd : (e :: rest).Nodup) (hne : e ≠ "") (hlen : rest.length = 1000) :
    List.foldl markEventProcessed [] (e :: rest) = rest ∧
    isEventProcessed rest e = false ∧
    ∀ x ∈ rest, isEventProcessed rest x = true := by
  have hmem : e ∉ rest := (List.nodup_cons.mp hnd).1
  refine ⟨?_, by simp [isEventProcessed, hmem], by intro x hx; simp [isEventProcessed, hx]⟩
  obtain ⟨rest', last, rfl⟩ : ∃ rest' last, rest = rest' ++ [last] := by
    rcases List.eq_nil_or_concat rest with h | ⟨L, b, h⟩
    · subst h; simp at hlen
    · exact ⟨L, b, by simpa [List.concat_eq_append] using h⟩
  have hlen' : rest'.length = 999 := by simp at hlen; omega
  rw [List.foldl_cons]
  have h0 : markEventProcessed [] e = [e] :=
    markEventProcessed_fresh [] e (List.not_mem_nil e) (by simp)
  rw [h0, List.foldl_append]
  have hinner : List.foldl markEventProcessed [e] rest' = e :: rest' := by
    have hsub : (e :: rest').Sublist (e :: (rest' ++ [last])) :=
      List.Sublist.cons₂ e (List.sublist_append_left rest' [last])
    have := foldMark_no_evict rest' [e] (by simpa using hnd.sublist hsub)
      (by simp [hlen'])
    simpa using this
  rw [hinner]
  have hlast : last ∉ e :: rest' := by
    intro hmem'
    have hnd' : ((e :: rest') ++ [last]).Nodup := by simpa using hnd
    have hd := (List.nodup_append.mp hnd').2.2
    exact hd hmem' (List.mem_singleton_self last)
  show markEventProcessed (e :: rest') last = rest' ++ [last]
  unfold markEventProcessed
  simp only [hlast, if_neg]
  have hgt : (e :: rest' ++ [last]).length > 1000 := by simp [hlen']
  simp [hlast, hgt, hne]
  omega

/-- C4 (amended) witness. -/
theorem dedup_fifo_eviction_witness :
    List.foldl markEventProcessed [] ("z" :: restW) = restW ∧
    isEventProcessed restW "z" = false ∧
    ∀ x ∈ restW, isEventProcessed restW x = true :=
  dedup_fifo_eviction "z" restW
    (List.nodup_cons.mpr ⟨z_not_mem_restW, restW_nodup⟩)
    (by decide) restW_length

/-- C4 counterexample: with 1001 distinct identities whose
first-inserted element is the empty string, the eviction guard
`if (first)` is falsy, nothing is ever evicted, and the first-inserted
identity is still reported as seen after all 1001 insertions — the
claimed strict capacity-1000 FIFO eviction fails. -/
theorem dedup_empty_id_retained :
    exList.Nodup ∧ exList.length = 1001 ∧
    isEventProcessed (List.foldl markEventProcessed [] exList) "" = true := by
  refine ⟨List.nodup_cons.mpr ⟨empty_not_mem_restW, restW_nodup⟩, by simp [exList, restW], ?_⟩
  have h1 : List.foldl markEventProcessed [] exList = [""] ++ restW := by
    rw [exList, List.foldl_cons]
    have h0 : markEventProcessed [] "" = [""] :=
      markEventProcessed_fresh [] "" (List.not_mem_nil "") (by simp)
    rw [h0]
    exact foldMark_skip_head restW [""]
      (by simpa using List.nodup_cons.mpr ⟨empty_not_mem_restW, restW_nodup⟩) rfl
  rw [h1]
  simp [isEventProcessed]

/-! ## Sanitizer lemmas -/

/-- A scan over a string on which the matcher never fires copies it
unchanged. -/
theorem noHit_scanReplF (m : List Char → Option (Nat × List Char)) :
    ∀ (fuel : Nat) (s : List Char), s.length ≤ fuel → noHit m s = true →
    scanReplF m fuel s = s := by
  intro fuel
  induction fuel with
  | zero =>
    intro s hle _
    cases s with
    | nil => rfl
    | cons c rest => simp at hle
  | succ n ih =>
    intro s hle hnh
    cases s with
    | nil => rfl
    | cons c rest =>
      unfold noHit at hnh
      rw [Bool.and_eq_true] at hnh
      obtain ⟨h1, h2⟩ := hnh
      rw [Option.isNone_iff_eq_none] at h1
      unfold scanReplF
      rw [h1, ih rest (by simp at hle; omega) h2]

/-- `scanRepl` is the identity on strings with no match. -/
theorem scanRepl_noHit (m : List Char → Option (Nat × List Char))
    (s : List Char) (h : noHit m s = true) : scanRepl m s = s :=
  noHit_scanReplF m s.length s le_rfl h

/-- `stripHtml` leaves a pattern-free string unchanged. -/
theorem stripHtml_clean (s : String) (h : cleanStr s = true) : stripHtml s = s := by
  unfold cleanStr at h
  simp only [Bool.and_eq_true] at h
  obtain ⟨⟨⟨⟨h1, h2⟩, _⟩, _⟩, _⟩ := h
  unfold stripHtml
  rw [scanRepl_noHit tagMatch s.data h1, scanRepl_noHit entityMatch s.data h2]

/-- `hideSensitive` leaves a pattern-free string unchanged. -/
theorem hideSensitive_clean (s : String) (h : cleanStr s = true) :
    hideSensitive s = s := by
  unfold cleanStr at h
  simp only [Bool.and_eq_true] at h
  obtain ⟨⟨⟨⟨_, _⟩, h3⟩, h4⟩, h5⟩ := h
  unfold hideSensitive
  rw [scanRepl_noHit tokenMatch s.data h3, scanRepl_noHit emailMatch s.data h4,
    scanRepl_noHit phoneMatch s.data h5]

/-- On a message whose content and title are pattern-free,
`sanitizeMessage` only sets the `sanitized` flag. -/
theorem sanitizeMessage_clean (m : NormalizedMessage)
    (hc : cleanStr m.content = true)
    (ht : ∀ t, m.title = some t → cleanStr t = true) :
    sanitizeMessage m true = { m with sanitized := true } := by
  unfold sanitizeMessage
  cases hmt : m.title with
  | none => simp [strTruthy, hmt, stripHtml_clean _ hc, hideSensitive_clean _ hc]
  | some t =>
    by_cases hne : t = ""
    · subst hne
      simp [strTruthy, hmt, stripHtml_clean _ hc, hideSensitive_clean _ hc]
    · have hct := ht t hmt
      simp [strTruthy, hmt, hne, stripHtml_clean _ hc, hideSensitive_clean _ hc,
        stripHtml_clean t hct, hideSensitive_clean t hct]

/-- C3 (amended): `sanitizeMessage` with `hideSensitive = true` is
idempotent on every message whose content and title are free of
matches of the markup and redaction patterns (both applications leave
the text unchanged and only the first sets the `sanitized` flag).  Full
idempotence fails, because the phone-pattern masking of a digit run
longer than 20 digits proceeds in chunks whose retained head and tail
digits recombine into a fresh maskable digit run. -/
theorem sanitize_idempotent_on_clean (m : NormalizedMessage)
    (hc : cleanStr m.content = true)
    (ht : ∀ t, m.title = some t → cleanStr t = true) :
    sanitizeMessage (sanitizeMessage m true) true = sanitizeMessage m true := by
  rw [sanitizeMessage_clean m hc ht]
  exact sanitizeMessage_clean _ hc ht

/-- C3 (amended) witness. -/
theorem sanitize_idempotent_on_clean_witness :
    cleanStr msgW.content = true ∧
    sanitizeMessage (sanitizeMessage msgW true) true = sanitizeMessage msgW true :=
  ⟨by decide,
   sanitize_idempotent_on_clean msgW (by decide)
     (by intro t ht; simp [msgW] at ht; subst ht; decide)⟩

/-- C3 counterexample: on a message whose content is a 25-digit run,
one sanitization masks the run in two chunks whose leftover digits abut
into a fresh four-digit run (`12****9012****45`), and a second
sanitization masks that run again (`12************45`) — so
`sanitize(sanitize(m, true), true) ≠ sanitize(m, true)`. -/
theorem sanitize_not_idempotent :
    (sanitizeMessage msgC3 true).content = "12****9012****45" ∧
    (sanitizeMessage (sanitizeMessage msgC3 true) true).content = "12************45" ∧
    (sanitizeMessage (sanitizeMessage msgC3 true) true).content ≠
      (sanitizeMessage msgC3 true).content := by
  refine ⟨by decide, by decide, by decide⟩

/-- C5 (amended): on an input in which `token=abcdefghijklmnopqrst`
stands alone (the credential value is not extended by further value
characters and no other credential keyword precedes it), the output
masks the value to its first two and last two characters — it contains
neither the full 20-character token nor an empty replacement — and the
email-, phone-, and card-shaped examples are likewise partially masked
with prefix and suffix retained. -/
theorem sensitive_partially_masked :
    hideSensitive "token=abcdefghijklmnopqrst" = "token=ab****st" ∧
    hasInfix "abcdefghijklmnopqrst".data "token=ab****st".data = false ∧
    ("token=ab****st" : String) ≠ "" ∧
    hideSensitive "mail me at user@example.com" = "mail me at us****@example.com" ∧
    hideSensitive "call 555-123-4567" = "call 55****67" ∧
    hideSensitive "card 4111-1111-1111-1111" = "card 41****11-****" := by
  refine ⟨by decide, by decide, by decide, by decide, by decide, by decide⟩

/-- C5 counterexample: in the input
`secret=aaaaaaaaaaaaaaaaaaaatoken=abcdefghijklmnopqrst`, which contains
`token=abcdefghijklmnopqrst`, the credential regex matches the earlier
`secret=` keyword and its greedy value run swallows the word `token`,
so the output still contains the full 20-character token unmasked —
refuting the claim for arbitrary surrounding text. -/
theorem token_masking_defeated :
    hasInfix "token=abcdefghijklmnopqrst".data
      "secret=aaaaaaaaaaaaaaaaaaaatoken=abcdefghijklmnopqrst".data = true ∧
    hideSensitive "secret=aaaaaaaaaaaaaaaaaaaatoken=abcdefghijklmnopqrst" =
      "secret=aa****en=abcdefghijklmnopqrst" ∧
    hasInfix "abcdefghijklmnopqrst".data
      "secret=aa****en=abcdefghijklmnopqrst".data = true := by
  refine ⟨by decide, by decide, by decide⟩

/-- C10 (amended): the phone pattern fires on any plain run of four or
more digits (up to the 20 digits one match can consume): a run of more
than four digits keeps its first two and last two digits, and a run of
exactly four digits is replaced entirely by `****`; longer runs are
masked 20 digits at a time. -/
theorem digit_runs_partially_masked :
    hideSensitive "The year 2024" = "The year ****" ∧
    hideSensitive "id 123456789" = "id 12****89" ∧
    hideSensitive "12345678901234567890" = "12****90" ∧
    hideSensitive "1-2-3-4" = "****" := by
  refine ⟨by decide, by decide, by decide, by decide⟩

/-- C10 counterexample: a run of 25 digits is not replaced by a single
mask keeping its first two and last two digits; the pattern consumes at
most 20 digits per match, so the run is masked in two chunks, and the
output retains eight digits instead of four. -/
theorem long_digit_run_chunked :
    hideSensitive "9876543210987654321098765" = "98****1098****65" ∧
    ("98****1098****65" : String) ≠ "98****65" := by
  refine ⟨by decide, by decide⟩

/-! ## Normalization lemmas -/

/-- Property access on a truthy value never throws and agrees with
optional-chained access. -/
theorem getField_of_truthy (v : JsVal) (hv : truthy v = true) (k : String) :
    getField v k = .ok (optField v k) := by
  cases v <;> simp_all [getField, optField, truthy]

/-- Property access on an object yields the field lookup. -/
theorem getField_obj (fields : List (String × JsVal)) (k : String) :
    getField (.obj fields) k = .ok (jsLookup fields k) := rfl

/-- C7 (amended): for every source and every `rawData` of object shape,
`normalize` returns without throwing, and when the origin's required
sub-object (`rawData.message` for telegram, `rawData.issue` for github)
is absent or falsy, the result has empty-string content.  Totality on
`null`/`undefined` fails: property access in the source throws there. -/
theorem normalize_total_on_objects (source : Source)
    (fields : List (String × JsVal)) (now : Nat) (rand : String) :
    isOk (normalize source (.obj fields) now rand) = true ∧
    (source = .telegram → truthy (jsLookup fields "message") = false →
      contentOf (normalize source (.obj fields) now rand) = some "") ∧
    (source = .github → truthy (jsLookup fields "issue") = false →
      contentOf (normalize source (.obj fields) now rand) = some "") := by
  cases source with
  | telegram =>
    refine ⟨?_, ?_, fun h => absurd h (by decide)⟩
    · by_cases hm : truthy (jsLookup fields "message") = true
      · simp [normalize, getField_obj, Except.bind, hm, getField_of_truthy _ hm, isOk]
      · simp only [Bool.not_eq_true] at hm
        simp [normalize, getField_obj, Except.bind, hm, isOk]
    · intro _ hm
      simp [normalize, getField_obj, Except.bind, hm, contentOf]
  | github =>
    refine ⟨?_, fun h => absurd h (by decide), ?_⟩
    · by_cases hm : truthy (jsLookup fields "issue") = true
      · simp [normalize, getField_obj, Except.bind, hm, getField_of_truthy _ hm, isOk]
      · simp only [Bool.not_eq_true] at hm
        simp [normalize, getField_obj, Except.bind, hm, isOk]
    · intro _ hm
      simp [normalize, getField_obj, Except.bind, hm, contentOf]
  | api =>
    exact ⟨by simp [normalize, getField_obj, Except.bind, isOk],
      fun h => absurd h (by decide), fun h => absurd h (by decide)⟩
  | internal =>
    exact ⟨by simp [normalize, getField_obj, Except.bind, isOk],
      fun h => absurd h (by decide), fun h => absurd h (by decide)⟩

/-- C7 (amended) witness. -/
theorem normalize_total_on_objects_witness :
    isOk (normalize .telegram (.obj []) 0 "r") = true ∧
    contentOf (normalize .telegram (.obj []) 0 "r") = some "" :=
  ⟨(normalize_total_on_objects .telegram [] 0 "r").1,
   (normalize_total_on_objects .telegram [] 0 "r").2.1 rfl rfl⟩

/-- C7 counterexample: `normalize` throws a `TypeError` on
`null`/`undefined` payloads for every source — plain property access on
a nullish `rawData` (`rawData.message`, `rawData.issue`,
`rawData.title`) is reached before any guard — refuting totality for
arbitrary `rawData`. -/
theorem normalize_throws_on_nullish :
    normalize .telegram .nullish 0 "r" = .error "TypeError" ∧
    normalize .github .nullish 0 "r" = .error "TypeError" ∧
    normalize .api .nullish 0 "r" = .error "TypeError" ∧
    normalize .internal .nullish 0 "r" = .error "TypeError" :=
  ⟨rfl, rfl, rfl, rfl⟩

end GSMRS
